import Mathlib

/-!
Verification development for the `wl-codegen` schema-to-code compiler.

The compiler (src/lib.rs, src/proto.rs) reads a protocol description
(Protocol → Interface → {Enum, Request, Event, Arg}) and emits Rust source
implementing wire-format dispatch and marshalling.  This file embeds:

* the in-memory data model of `proto.rs`;
* the identifier-case collaborator (the `heck` crate) as executable
  casing functions over ASCII identifiers;
* the per-`Arg` artifact functions `getter`, `sender`, `ty` (here
  `ownedTy`, since `ty` is the field name), `send_ty` as the token text
  each `quote!` branch produces;
* the emission pass of `lib.rs` (`protocol`, `interface`, `enumeration`,
  `request`, `event`) as structures holding exactly the data spliced into
  the generated source;
* the runtime meaning of the generated dispatch entry point, of the
  generated decode sequences and of the generated event default bodies,
  with the message cursor / message stream collaborators modelled as
  lists of wire values and a send/commit failure script.
-/

/-! ## Identifier casing (model of the `heck` collaborator)

`heck` splits an identifier into words at non-alphanumeric separators and
at case boundaries inside an alphanumeric run (lower→upper, and before the
last upper of an acronym run followed by a lower), then recases each word.
Modelled here for ASCII identifiers. -/

/-- Split a character list into maximal alphanumeric runs, dropping
separator characters. -/
def sepSplit (cs : List Char) : List (List Char) :=
  (cs.foldr (fun c acc =>
    if c.isAlphanum then
      match acc with
      | [] => [[c]]
      | w :: ws => (c :: w) :: ws
    else [] :: acc) []).filter (fun w => ¬ w.isEmpty)

/-- Split one alphanumeric run at case boundaries.  `acc` holds the
current word reversed. -/
def caseSplitAux : List Char → List Char → List (List Char)
  | acc, [] => [acc.reverse]
  | acc, c :: rest =>
    match acc with
    | [] => caseSplitAux [c] rest
    | p :: ps =>
      if p.isLower && c.isUpper then
        acc.reverse :: caseSplitAux [c] rest
      else if p.isUpper && c.isLower && (match ps with | q :: _ => q.isUpper | [] => false) then
        ps.reverse :: caseSplitAux [c, p] rest
      else
        caseSplitAux (c :: acc) rest

/-- Case-boundary word split of one alphanumeric run. -/
def caseSplit (w : List Char) : List (List Char) :=
  (caseSplitAux [] w).filter (fun w => ¬ w.isEmpty)

/-- The words of an identifier, as `heck` segments them. -/
def identWords (s : String) : List (List Char) :=
  (sepSplit s.toList).flatMap caseSplit

/-- Capitalize one word: first char uppercased, the rest lowercased. -/
def capitalizeWord : List Char → List Char
  | [] => []
  | c :: cs => c.toUpper :: cs.map Char.toLower

/-- Model of `heck::ToSnakeCase`. -/
def toSnakeCase (s : String) : String :=
  String.intercalate "_" ((identWords s).map (fun w => String.mk (w.map Char.toLower)))

/-- Model of `heck::ToShoutySnakeCase`. -/
def toShoutySnakeCase (s : String) : String :=
  String.intercalate "_" ((identWords s).map (fun w => String.mk (w.map Char.toUpper)))

/-- Model of `heck::ToPascalCase`. -/
def toPascalCase (s : String) : String :=
  String.join ((identWords s).map (fun w => String.mk (capitalizeWord w)))

/-- Model of `heck::ToTitleCase`. -/
def toTitleCase (s : String) : String :=
  String.intercalate " " ((identWords s).map (fun w => String.mk (capitalizeWord w)))

/-! ## Data model (src/proto.rs)

Field-for-field embedding of the deserialized protocol model.  `u32`
fields become `Nat` (their values are never arithmetically combined). -/

/-- The eight wire data types of `proto.rs::DataType`. -/
inductive DataType
  | Int
  | Uint
  | Fixed
  | String
  | Array
  | Fd
  | Object
  | NewId
deriving DecidableEq, Repr

/-- `proto.rs::Arg`. -/
structure Arg where
  name : String
  nullable : Bool
  ty : DataType
  interface : Option String
  enumeration : Option String
  summary : Option String
deriving DecidableEq, Repr

/-- `proto.rs::Entry`. -/
structure Entry where
  name : String
  since : Option Nat
  summary : Option String
  description : Option String
  value : Nat
deriving DecidableEq, Repr

/-- `proto.rs::Enum`. -/
structure Enum where
  name : String
  summary : Option String
  description : Option String
  since : Option Nat
  entries : List Entry
deriving DecidableEq, Repr

/-- `proto.rs::Request`. -/
structure Request where
  name : String
  since : Option Nat
  destructor : Bool
  summary : Option String
  description : Option String
  args : List Arg
deriving DecidableEq, Repr

/-- `proto.rs::Event`. -/
structure Event where
  name : String
  since : Option Nat
  summary : Option String
  description : Option String
  args : List Arg
deriving DecidableEq, Repr

/-- `proto.rs::Interface`. -/
structure Interface where
  name : String
  summary : Option String
  description : Option String
  version : Nat
  enums : List Enum
  requests : List Request
  events : List Event
deriving DecidableEq, Repr

/-- `proto.rs::Protocol`. -/
structure Protocol where
  name : String
  summary : Option String
  description : Option String
  copyright : Option String
  interfaces : List Interface
deriving DecidableEq, Repr

/-! ## Per-Arg artifacts (src/proto.rs, `impl Arg`)

Each function returns the token text of the corresponding `quote!` branch,
with `#stream` / `#ident` spliced in exactly as the source does. -/

/-- `Arg::getter`: the decode template read against the message cursor. -/
def Arg.getter (a : Arg) (stream : String) : String :=
  match a.ty with
  | .Int => stream ++ ".i32()?"
  | .Uint => stream ++ ".u32()?"
  | .Fixed => stream ++ ".fixed()?"
  | .String =>
    if a.nullable then stream ++ ".string()?"
    else stream ++ ".string()?.ok_or(::yutani::wire::WlError::NON_NULLABLE)?"
  | .Array => stream ++ ".bytes()?"
  | .Fd => stream ++ ".file()?"
  | .Object =>
    if a.nullable then stream ++ ".object()?"
    else stream ++ ".object()?.ok_or(::yutani::wire::WlError::NON_NULLABLE)?"
  | .NewId =>
    match a.interface with
    | some _ => stream ++ ".object()?.ok_or(::yutani::wire::WlError::NON_NULLABLE)?"
    | none => stream ++ ".new_id()?"

/-- `Arg::sender`: the encode template written against the message stream. -/
def Arg.sender (a : Arg) (stream : String) : String :=
  let ident := toSnakeCase a.name
  match a.ty with
  | .Int => stream ++ ".send_i32(" ++ ident ++ ")?"
  | .Uint => stream ++ ".send_u32(" ++ ident ++ ")?"
  | .Fixed => stream ++ ".send_fixed(" ++ ident ++ ")?"
  | .String =>
    if a.nullable then stream ++ ".send_string(" ++ ident ++ ")?"
    else stream ++ ".send_string(::core::option::Option::Some(" ++ ident ++ "))?"
  | .Array => stream ++ ".send_bytes(" ++ ident ++ ")?"
  | .Fd => stream ++ ".send_file(" ++ ident ++ ")?"
  | .Object =>
    if a.nullable then stream ++ ".send_object(" ++ ident ++ ")?"
    else stream ++ ".send_object(Some(" ++ ident ++ "))?"
  | .NewId =>
    match a.interface with
    | some _ => stream ++ ".send_object(Some(" ++ ident ++ "))?"
    | none => stream ++ ".send_new_id(" ++ ident ++ ")?"

/-- `Arg::ty`: the owned type used in request-handler signatures (named
`ownedTy` here because `ty` is already the field name). -/
def Arg.ownedTy (a : Arg) : String :=
  match a.ty with
  | .Int => "::core::primitive::i32"
  | .Uint => "::core::primitive::u32"
  | .Fixed => "::yutani::Fixed"
  | .String =>
    if a.nullable then "::core::option::Option<::std::string::String>"
    else "::std::string::String"
  | .Array => "::std::vec::Vec<u8>"
  | .Fd => "::yutani::File"
  | .Object =>
    if a.nullable then "::core::option::Option<::yutani::Id>"
    else "::yutani::Id"
  | .NewId =>
    match a.interface with
    | some _ => "::yutani::Id"
    | none => "::yutani::NewId"

/-- `Arg::send_ty`: the transient type used in event-sending signatures. -/
def Arg.send_ty (a : Arg) : String :=
  match a.ty with
  | .Int => "::core::primitive::i32"
  | .Uint => "::core::primitive::u32"
  | .Fixed => "::yutani::Fixed"
  | .String =>
    if a.nullable then "::core::option::Option<&\x27_ ::core::primitive::str>"
    else "&\x27_ ::core::primitive::str"
  | .Array => "&\x27_ [::core::primitive::u8]"
  | .Fd => "::yutani::Fd<\x27static>"
  | .Object =>
    if a.nullable then "::core::option::Option<::yutani::Id>"
    else "::yutani::Id"
  | .NewId =>
    match a.interface with
    | some _ => "::yutani::Id"
    | none => "&\x27_ ::yutani::NewId"

/-! ## Emission pass (src/lib.rs)

Each `quote!` in `lib.rs` splices interpolated pieces into fixed token
text.  The structures below hold exactly those interpolated pieces, in
the order the source computes them; the fixed surrounding tokens carry no
schema-dependent information. -/

/-- Whether a name starts with a numeric character
(`name.starts_with(char::is_numeric)`, ASCII model). -/
def startsWithDigit (s : String) : Bool :=
  match s.toList with
  | [] => false
  | c :: _ => c.isDigit

/-- The constant identifier emitted for an enum entry (lib.rs lines
143-147 and 169-172): entries whose name starts with a digit are
prefixed with the owning enum's name before shouty-snake casing. -/
def entryConstName (enumName entryName : String) : String :=
  if startsWithDigit entryName then
    toShoutySnakeCase (enumName ++ "_" ++ entryName)
  else
    toShoutySnakeCase entryName

/-- One `pub const #ident: Self = Self(#value);` item of the generated
enum wrapper, with its doc attributes. -/
structure EntryDecl where
  constName : String
  since : Option Nat
  summary : Option String
  description : Option String
  value : Nat
deriving DecidableEq, Repr

/-- The generated enum wrapper (`lib.rs::enumeration`): a
`#[repr(transparent)] pub struct #ident(u32)` with constants and a
`Debug` impl whose match arms are `entriesDebug`. -/
structure EnumDecl where
  ident : String
  since : Option Nat
  summary : Option String
  description : Option String
  entries : List EntryDecl
  entriesDebug : List (Nat × String)
deriving DecidableEq, Repr

/-- `lib.rs::enumeration`. -/
def enumeration (e : Enum) : EnumDecl :=
  { ident := toPascalCase e.name
    since := e.since
    summary := e.summary.map toTitleCase
    description := e.description
    entries := e.entries.map (fun en =>
      { constName := entryConstName e.name en.name
        since := en.since
        summary := en.summary.map toTitleCase
        description := en.description
        value := en.value })
    entriesDebug := e.entries.map (fun en => (en.value, entryConstName e.name en.name)) }

/-- Runtime meaning of the generated `Debug` impl: the wrapped `u32` is
matched against the `entriesDebug` arms in order (`#value =>
write!(f, "NAME(value)")`), falling back to the wildcard
`UNKNOWN(value)` arm. -/
def enumDebugFmt (e : Enum) (v : Nat) : String :=
  match (enumeration e).entriesDebug.find? (fun p => p.1 == v) with
  | some p => p.2 ++ "(" ++ toString v ++ ")"
  | none => "UNKNOWN(" ++ toString v ++ ")"

/-- The generated abstract request method (`lib.rs::request`): `fn #ident
(this, event_loop, client #(, #args)*) -> Result<(), WlError>;` where
`args` pairs each snake-cased arg name with its owned type. -/
structure RequestDecl where
  ident : String
  since : Option Nat
  summary : Option String
  description : Option String
  args : List (String × String)
  argSummariesHeader : Bool
  argSummaries : List String
deriving DecidableEq, Repr

/-- `lib.rs::request`. -/
def request (r : Request) : RequestDecl :=
  let argSummaries := r.args.filterMap (fun a =>
    a.summary.map (fun s => "\n`" ++ a.name ++ "`: " ++ s))
  { ident := toSnakeCase r.name
    since := r.since
    summary := r.summary.map toTitleCase
    description := r.description
    args := r.args.map (fun a => (toSnakeCase a.name, a.ownedTy))
    argSummariesHeader := ¬ argSummaries.isEmpty
    argSummaries := argSummaries }

/-- The generated event method with default body (`lib.rs::event`):
`fn #ident(this, client #(, #args)*)` whose body starts a message for
`(this.id(), #opcode)`, runs `senders` in order and commits. -/
structure EventDecl where
  ident : String
  since : Option Nat
  summary : Option String
  description : Option String
  opcode : Nat
  args : List (String × String)
  senders : List String
  argSummariesHeader : Bool
  argSummaries : List String
deriving DecidableEq, Repr

/-- `lib.rs::event`. -/
def event (e : Event) (opcode : Nat) : EventDecl :=
  let argSummaries := e.args.filterMap (fun a =>
    a.summary.map (fun s => "\n`" ++ a.name ++ "`: " ++ s))
  { ident := toSnakeCase e.name
    since := e.since
    summary := e.summary.map toTitleCase
    description := e.description
    opcode := opcode
    args := e.args.map (fun a => (toSnakeCase a.name, a.send_ty))
    senders := e.args.map (fun a => a.sender "_stream")
    argSummariesHeader := ¬ argSummaries.isEmpty
    argSummaries := argSummaries }

/-- One `#opcode => { ... }` arm of the generated dispatch match
(lib.rs lines 71-92): the snake-cased method name, the
`let #ident = #getter;` bindings in declared arg order, and the
argument identifiers passed to the method call. -/
structure DispatchArm where
  opcode : Nat
  ident : String
  defineArgs : List (String × String)
  callArgs : List String
deriving DecidableEq, Repr

/-- The generated per-interface trait (`lib.rs::interface`): name and
version constants, the dispatch arms, the request declarations, the
event methods and the nested enum module. -/
structure InterfaceDecl where
  traitIdent : String
  modIdent : String
  name : String
  version : Nat
  versionDoc : String
  summary : Option String
  description : Option String
  enums : List EnumDecl
  requests : List RequestDecl
  events : List EventDecl
  dispatchArms : List DispatchArm
deriving DecidableEq, Repr

/-- The dispatch arm built for `(opcode, r)` by the closure at lib.rs
lines 71-92. -/
def dispatchArm (opcode : Nat) (r : Request) : DispatchArm :=
  { opcode := opcode
    ident := toSnakeCase r.name
    defineArgs := r.args.map (fun a => (toSnakeCase a.name, a.getter "_stream"))
    callArgs := r.args.map (fun a => toSnakeCase a.name) }

/-- `lib.rs::interface`. -/
def interface (i : Interface) : InterfaceDecl :=
  { traitIdent := toPascalCase i.name
    modIdent := toSnakeCase i.name
    name := i.name
    version := i.version
    versionDoc := "`Version " ++ toString i.version ++ "`"
    summary := i.summary.map toTitleCase
    description := i.description
    enums := i.enums.map enumeration
    requests := i.requests.map request
    events := i.events.enum.map (fun p => event p.2 p.1)
    dispatchArms := i.requests.enum.map (fun p => dispatchArm p.1 p.2) }

/-- The generated source unit (`lib.rs::protocol`, emission part; the
file loading is the excluded Schema Loader). -/
structure ProtocolDecl where
  header : String
  summary : Option String
  description : Option String
  copyright : Option String
  interfaces : List InterfaceDecl
deriving DecidableEq, Repr

/-- `lib.rs::protocol` (emission). -/
def protocol (p : Protocol) : ProtocolDecl :=
  { header := "# " ++ toTitleCase p.name
    summary := p.summary
    description := p.description
    copyright := p.copyright
    interfaces := p.interfaces.map interface }

/-! ## Runtime meaning of the generated code

The generated dispatch entry point and the generated event default bodies
call into the message cursor / message stream collaborators.  The cursor
is modelled as a list of typed wire values (a typed read succeeds exactly
when the next value has the requested shape, else the collaborator's
decode failure `BAD_MESSAGE` is returned); the stream is modelled as a
trace of operations plus a failure script for the fallible `send_*` and
`commit` calls. -/

/-- Error codes of the generated code's runtime error domain
(`WlError`).  `INTERNAL` is the dispatch downcast failure, and
`NON_NULLABLE` is the missing-required-argument failure the spec calls
MissingRequiredArgument.  `BAD_MESSAGE`, `SEND_FAILED` and
`COMMIT_FAILED` stand for failures produced by the cursor / stream
collaborators and merely propagated by the generated code. -/
inductive WlError
  | INTERNAL
  | INVALID_OPCODE
  | NON_NULLABLE
  | BAD_MESSAGE
  | SEND_FAILED
  | COMMIT_FAILED
deriving DecidableEq, Repr

/-- A typed value on the wire, as the cursor/stream collaborators see it:
strings and object ids are optional on the wire, a new-id descriptor
carries interface name, version and id inline. -/
inductive WireVal
  | i32 (n : Int)
  | u32 (n : Nat)
  | fixed (n : Int)
  | str (s : Option String)
  | bytes (b : List Nat)
  | file (f : Nat)
  | obj (o : Option Nat)
  | new_id (iface : String) (version : Nat) (id : Nat)
deriving DecidableEq, Repr

/-- The message cursor: remaining wire values of the incoming message. -/
abbrev Cursor := List WireVal

/-- Cursor collaborator `i32()`. -/
def readI32 : Cursor → Except WlError (Int × Cursor)
  | .i32 n :: rest => .ok (n, rest)
  | _ => .error .BAD_MESSAGE

/-- Cursor collaborator `u32()`. -/
def readU32 : Cursor → Except WlError (Nat × Cursor)
  | .u32 n :: rest => .ok (n, rest)
  | _ => .error .BAD_MESSAGE

/-- Cursor collaborator `fixed()`. -/
def readFixed : Cursor → Except WlError (Int × Cursor)
  | .fixed n :: rest => .ok (n, rest)
  | _ => .error .BAD_MESSAGE

/-- Cursor collaborator `string()`: reads an optional string. -/
def readString : Cursor → Except WlError (Option String × Cursor)
  | .str s :: rest => .ok (s, rest)
  | _ => .error .BAD_MESSAGE

/-- Cursor collaborator `bytes()`. -/
def readBytes : Cursor → Except WlError (List Nat × Cursor)
  | .bytes b :: rest => .ok (b, rest)
  | _ => .error .BAD_MESSAGE

/-- Cursor collaborator `file()`. -/
def readFd : Cursor → Except WlError (Nat × Cursor)
  | .file f :: rest => .ok (f, rest)
  | _ => .error .BAD_MESSAGE

/-- Cursor collaborator `object()`: reads an optional object id. -/
def readObject : Cursor → Except WlError (Option Nat × Cursor)
  | .obj o :: rest => .ok (o, rest)
  | _ => .error .BAD_MESSAGE

/-- Cursor collaborator `new_id()`: reads a dynamic new-id descriptor. -/
def readNewId : Cursor → Except WlError ((String × Nat × Nat) × Cursor)
  | .new_id i v n :: rest => .ok ((i, v, n), rest)
  | _ => .error .BAD_MESSAGE

/-- A decoded (or to-be-encoded) argument value, one shape per owned
type the type mapper can produce. -/
inductive Val
  | int (n : Int)
  | uint (n : Nat)
  | fixed (n : Int)
  | str (s : String)
  | optStr (s : Option String)
  | bytes (b : List Nat)
  | file (f : Nat)
  | obj (o : Nat)
  | optObj (o : Option Nat)
  | newIdD (iface : String) (version : Nat) (id : Nat)
deriving DecidableEq, Repr

/-- Runtime meaning of `Arg::getter`'s decode template: the cursor read
for the arg's wire type, with `.ok_or(NON_NULLABLE)?` applied to absent
optional values exactly where the source applies it. -/
def Arg.getterSem (a : Arg) (c : Cursor) : Except WlError (Val × Cursor) :=
  match a.ty with
  | .Int => (readI32 c).map (fun p => (.int p.1, p.2))
  | .Uint => (readU32 c).map (fun p => (.uint p.1, p.2))
  | .Fixed => (readFixed c).map (fun p => (.fixed p.1, p.2))
  | .String =>
    if a.nullable then (readString c).map (fun p => (.optStr p.1, p.2))
    else
      match readString c with
      | .error e => .error e
      | .ok (none, _) => .error .NON_NULLABLE
      | .ok (some s, rest) => .ok (.str s, rest)
  | .Array => (readBytes c).map (fun p => (.bytes p.1, p.2))
  | .Fd => (readFd c).map (fun p => (.file p.1, p.2))
  | .Object =>
    if a.nullable then (readObject c).map (fun p => (.optObj p.1, p.2))
    else
      match readObject c with
      | .error e => .error e
      | .ok (none, _) => .error .NON_NULLABLE
      | .ok (some o, rest) => .ok (.obj o, rest)
  | .NewId =>
    match a.interface with
    | some _ =>
      match readObject c with
      | .error e => .error e
      | .ok (none, _) => .error .NON_NULLABLE
      | .ok (some o, rest) => .ok (.obj o, rest)
    | none => (readNewId c).map (fun p => (.newIdD p.1.1 p.1.2.1 p.1.2.2, p.2))

/-- The `let #ident = #getter;` sequence of one dispatch arm: decode the
args in declared order, aborting on the first failure (each getter ends
in `?`). -/
def decodeArgs : List Arg → Cursor → Except WlError (List Val × Cursor)
  | [], c => .ok ([], c)
  | a :: rest, c =>
    match a.getterSem c with
    | .error e => .error e
    | .ok (v, c1) =>
      match decodeArgs rest c1 with
      | .error e => .error e
      | .ok (vs, c2) => .ok (v :: vs, c2)

/-- The method invocation a dispatch arm performs on success:
`Self::#ident(_this, _event_loop, _client #(, #args)*)`. -/
structure Call (α β γ : Type) where
  this : α
  eventLoop : β
  client : γ
  ident : String
  vals : List Val
deriving Repr

/-- Runtime meaning of the generated `dispatch` (lib.rs lines 104-110):
downcast the opaque handle (`.ok_or(WlError::INTERNAL)?`), then match the
message opcode against the arms `0 .. requests.length - 1` (arm `i`
decodes request `i`'s args from the client's stream and invokes its
method), with the wildcard arm returning `INVALID_OPCODE`. -/
def dispatch {α β γ : Type} (requests : List Request) (this : Option α)
    (eventLoop : β) (client : γ) (opcode : Nat) (c : Cursor) :
    Except WlError (Call α β γ) :=
  match this with
  | none => .error .INTERNAL
  | some t =>
    match requests.get? opcode with
    | none => .error .INVALID_OPCODE
    | some r =>
      match decodeArgs r.args c with
      | .error e => .error e
      | .ok (vals, _) =>
        .ok { this := t, eventLoop := eventLoop, client := client
              ident := toSnakeCase r.name, vals := vals }

/-- The wire value one `send_*` call of `Arg::sender` hands to the
stream collaborator, given the argument's value: `Some(#ident)` is
wrapped exactly where the source wraps it.  `none` signals a value of
the wrong shape, impossible in the statically-typed generated code. -/
def Arg.senderSem (a : Arg) (v : Val) : Option WireVal :=
  match a.ty with
  | .Int => match v with | .int n => some (.i32 n) | _ => none
  | .Uint => match v with | .uint n => some (.u32 n) | _ => none
  | .Fixed => match v with | .fixed n => some (.fixed n) | _ => none
  | .String =>
    if a.nullable then match v with | .optStr s => some (.str s) | _ => none
    else match v with | .str s => some (.str (some s)) | _ => none
  | .Array => match v with | .bytes b => some (.bytes b) | _ => none
  | .Fd => match v with | .file f => some (.file f) | _ => none
  | .Object =>
    if a.nullable then match v with | .optObj o => some (.obj o) | _ => none
    else match v with | .obj o => some (.obj (some o)) | _ => none
  | .NewId =>
    match a.interface with
    | some _ => match v with | .obj o => some (.obj (some o)) | _ => none
    | none => match v with | .newIdD i ver n => some (.new_id i ver n) | _ => none

/-- One operation observed on the outgoing message stream. -/
inductive Op
  | start (id : Nat) (opcode : Nat)
  | send (w : WireVal)
  | commit
deriving DecidableEq, Repr

/-- Run the `#(#args_senders;)*` sequence of an event body.  `script`
is the stream collaborator's failure script: its `k`-th entry tells
whether the `k`-th `send_*` call succeeds (missing entries succeed).
Returns the operations that reached the stream and the error of the
first failed send, if any (each sender ends in `?`). -/
def runSenders : List Arg → List Val → List Bool → List Op × Option WlError
  | [], _, _ => ([], none)
  | _ :: _, [], _ => ([], some .BAD_MESSAGE)
  | a :: rest, v :: vs, script =>
    if script.headD true then
      match a.senderSem v with
      | none => ([], some .BAD_MESSAGE)
      | some w =>
        let p := runSenders rest vs script.tail
        (.send w :: p.1, p.2)
    else ([], some .SEND_FAILED)

/-- Runtime meaning of the generated event default body (lib.rs lines
302-307): `let _stream = client.stream(); let _key =
_stream.start_message(this.id(), #opcode); #(#args_senders;)*
_stream.commit(_key)`.  `commitOk` is the collaborator's verdict on the
final `commit`. -/
def eventBody (e : Event) (opcode : Nat) (id : Nat) (vals : List Val)
    (script : List Bool) (commitOk : Bool) : List Op × Option WlError :=
  let p := runSenders e.args vals script
  match p.2 with
  | some err => (.start id opcode :: p.1, some err)
  | none =>
    if commitOk then (.start id opcode :: p.1 ++ [.commit], none)
    else (.start id opcode :: p.1, some .COMMIT_FAILED)

/-- The wire values an event's senders emit for given argument values,
when every value has the arg's shape (`none` otherwise). -/
def sentOf : List Arg → List Val → Option (List WireVal)
  | [], [] => some []
  | a :: rest, v :: vs =>
    match a.senderSem v, sentOf rest vs with
    | some w, some ws => some (w :: ws)
    | _, _ => none
  | _, _ => none

/-! ## Concrete fixtures (the spec's `greeter` example and a `transform`
enum) used by witness corollaries. -/

/-- The `name: non-null string` argument of `greeter.hello`. -/
def helloArg : Arg :=
  { name := "name", nullable := false, ty := .String
    interface := none, enumeration := none, summary := none }

/-- The `hello(name: non-null string)` request. -/
def helloRequest : Request :=
  { name := "hello", since := none, destructor := false
    summary := none, description := none, args := [helloArg] }

/-- The `greeting(text: non-null string)` event. -/
def greetingEvent : Event :=
  { name := "greeting", since := none, summary := none, description := none
    args := [{ name := "text", nullable := false, ty := .String
               interface := none, enumeration := none, summary := none }] }

/-- The `greeter` interface, version 1. -/
def greeter : Interface :=
  { name := "greeter", summary := none, description := none, version := 1
    enums := [], requests := [helloRequest], events := [greetingEvent] }

/-- A `transform` enum with a digit-leading entry `180` and a word
entry `flipped`, with a duplicate value for the unknown-value case. -/
def transformEnum : Enum :=
  { name := "transform", summary := none, description := none, since := none
    entries :=
      [{ name := "180", since := none, summary := none, description := none, value := 1 },
       { name := "flipped", since := none, summary := none, description := none, value := 2 }] }

/-! ## Claims -/

/-- C1: the generated dispatch entry point first downcasts the opaque
handle and returns `WlError::INTERNAL` when the downcast fails, before
any opcode inspection (the error is the same for every opcode and
cursor); and with a successful downcast, every opcode outside
`0 .. requests.length - 1` returns `WlError::INVALID_OPCODE`.  Both are
explicit `Except.error` results of `dispatch`. -/
theorem dispatch_downcast_then_opcode {α β γ : Type} (requests : List Request)
    (eventLoop : β) (client : γ) (opcode : Nat) (c : Cursor) :
    dispatch requests (none : Option α) eventLoop client opcode c = .error .INTERNAL ∧
    (∀ this : α, requests.length ≤ opcode →
      dispatch requests (some this) eventLoop client opcode c = .error .INVALID_OPCODE) := by
  refine ⟨rfl, fun this h => ?_⟩
  simp [dispatch, List.getElem?_eq_none h]

/-- Witness for C1 on the `greeter` interface: failed downcast at opcode
0, and opcode 1 past the single declared request. -/
theorem dispatch_downcast_then_opcode_witness :
    dispatch [helloRequest] (none : Option Unit) () () 0 [] = .error .INTERNAL ∧
    dispatch [helloRequest] (some ()) () () 1 [] = .error .INVALID_OPCODE :=
  ⟨(dispatch_downcast_then_opcode [helloRequest] () () 0 []).1,
   (dispatch_downcast_then_opcode [helloRequest] () () 1 []).2 () (by decide)⟩

/-- C2: the dispatch arm for each Request is keyed by its zero-based
position in declaration order, the opcode each Event's default body
passes to `start_message` is its zero-based position, and emitting the
same unchanged protocol model again reproduces identical output (hence
identical opcodes). -/
theorem generated_opcodes_are_declaration_indices (i : Interface) :
    (interface i).dispatchArms.map DispatchArm.opcode = List.range i.requests.length ∧
    (interface i).events.map EventDecl.opcode = List.range i.events.length ∧
    (∀ i2 : Interface, i2 = i → interface i2 = interface i) := by
  refine ⟨?_, ?_, fun i2 h => by rw [h]⟩
  · have h1 : (interface i).dispatchArms.map DispatchArm.opcode
        = i.requests.enum.map Prod.fst := by
      simp only [interface, List.map_map]
      rfl
    rw [h1, List.enum_map_fst]
  · have h2 : (interface i).events.map EventDecl.opcode
        = i.events.enum.map Prod.fst := by
      simp only [interface, List.map_map]
      rfl
    rw [h2, List.enum_map_fst]

/-- Witness for C2 on the `greeter` interface. -/
theorem generated_opcodes_witness :
    (interface greeter).dispatchArms.map DispatchArm.opcode
        = List.range greeter.requests.length ∧
    interface greeter = interface greeter :=
  ⟨(generated_opcodes_are_declaration_indices greeter).1,
   (generated_opcodes_are_declaration_indices greeter).2.2 greeter rfl⟩

/-- C7: enum entries whose name begins with a digit are emitted as the
owning enum's name prefixed to the entry name, shouty-snake cased
(entry `180` of enum `transform` becomes `TRANSFORM_180`); other
entries are cased without a prefix; and both the constant items and the
Debug match arms of the generated wrapper use exactly these names. -/
theorem digit_entry_const_names (enumName entryName : String) (e : Enum) :
    (startsWithDigit entryName = true →
      entryConstName enumName entryName = toShoutySnakeCase (enumName ++ "_" ++ entryName)) ∧
    (startsWithDigit entryName = false →
      entryConstName enumName entryName = toShoutySnakeCase entryName) ∧
    entryConstName "transform" "180" = "TRANSFORM_180" ∧
    (enumeration e).entries.map EntryDecl.constName
        = e.entries.map (fun en => entryConstName e.name en.name) ∧
    (enumeration e).entriesDebug.map Prod.snd
        = e.entries.map (fun en => entryConstName e.name en.name) := by
  refine ⟨fun h => by simp [entryConstName, h], fun h => by simp [entryConstName, h],
    by decide, ?_, ?_⟩
  · simp only [enumeration, List.map_map]
    rfl
  · simp only [enumeration, List.map_map]
    rfl

/-- Witness for C7: the digit branch on `transform`/`180` and the
word branch on `transform`/`flipped`. -/
theorem digit_entry_const_names_witness :
    entryConstName "transform" "180" = toShoutySnakeCase ("transform" ++ "_" ++ "180") ∧
    entryConstName "transform" "flipped" = toShoutySnakeCase "flipped" :=
  ⟨(digit_entry_const_names "transform" "180" transformEnum).1 (by decide),
   (digit_entry_const_names "transform" "flipped" transformEnum).2.1 (by decide)⟩

/-- The generated Debug impl's match over the `entriesDebug` arms is the
first declared entry whose value equals the wrapped value. -/
theorem enumDebugFmt_find (e : Enum) (v : Nat) :
    enumDebugFmt e v =
      match e.entries.find? (fun en => en.value == v) with
      | some en => entryConstName e.name en.name ++ "(" ++ toString v ++ ")"
      | none => "UNKNOWN(" ++ toString v ++ ")" := by
  unfold enumDebugFmt
  have hmap : (enumeration e).entriesDebug
      = e.entries.map (fun en => (en.value, entryConstName e.name en.name)) := rfl
  rw [hmap, List.find?_map]
  have hcomp : ((fun p : Nat × String => p.1 == v) ∘
      (fun en : Entry => (en.value, entryConstName e.name en.name)))
      = fun en : Entry => en.value == v := rfl
  rw [hcomp]
  cases e.entries.find? (fun en => en.value == v) <;> rfl

/-- C8: the generated enum wrapper's Debug rendering matches the wrapped
`u32` against every declared entry: a value declared by some entry
renders `NAME(value)` with `NAME` the constant-style name of a declared
entry holding that value, and a value no entry declares renders
`UNKNOWN(value)`. -/
theorem enum_debug_rendering (e : Enum) (v : Nat) :
    ((∀ en ∈ e.entries, en.value ≠ v) →
      enumDebugFmt e v = "UNKNOWN(" ++ toString v ++ ")") ∧
    (∀ en0 ∈ e.entries, en0.value = v →
      ∃ en ∈ e.entries, en.value = v ∧
        enumDebugFmt e v = entryConstName e.name en.name ++ "(" ++ toString v ++ ")") := by
  constructor
  · intro h
    rw [enumDebugFmt_find,
      List.find?_eq_none.mpr (fun en hen => by simpa using h en hen)]
  · intro en0 hen0 hv
    cases hfind : e.entries.find? (fun en => en.value == v) with
    | none =>
      have := List.find?_eq_none.mp hfind en0 hen0
      simp [hv] at this
    | some en =>
      refine ⟨en, List.mem_of_find?_eq_some hfind,
        by simpa using List.find?_some hfind, ?_⟩
      rw [enumDebugFmt_find, hfind]

/-- Witness for C8 on `transformEnum`: value 1 renders through entry
`180`, value 7 (declared by no entry) renders `UNKNOWN(7)`. -/
theorem enum_debug_rendering_witness :
    enumDebugFmt transformEnum 7 = "UNKNOWN(" ++ toString 7 ++ ")" ∧
    (∃ en ∈ transformEnum.entries, en.value = 1 ∧
      enumDebugFmt transformEnum 1
        = entryConstName transformEnum.name en.name ++ "(" ++ toString 1 ++ ")") :=
  ⟨(enum_debug_rendering transformEnum 7).1 (by decide),
   (enum_debug_rendering transformEnum 1).2
     { name := "180", since := none, summary := none, description := none, value := 1 }
     (by simp [transformEnum]) rfl⟩

/-- A nullable object argument, used as a witness input. -/
def parentArg : Arg :=
  { name := "parent", nullable := true, ty := .Object
    interface := none, enumeration := none, summary := none }

/-- C3: for String and Object args, the nullable flag toggles
optional-wrapping on the owned type and the decode-time presence check:
non-nullable decode reads the optional wire value and fails with
`NON_NULLABLE` (the spec's MissingRequiredArgument) exactly when it is
absent; nullable decode maps absence to `none` without failing. -/
theorem string_object_nullability (a : Arg) (c : Cursor) :
    (a.ty = .String → a.nullable = false →
      a.ownedTy = "::std::string::String" ∧
      (∀ s, a.getterSem (.str (some s) :: c) = .ok (.str s, c)) ∧
      a.getterSem (.str none :: c) = .error .NON_NULLABLE) ∧
    (a.ty = .String → a.nullable = true →
      a.ownedTy = "::core::option::Option<::std::string::String>" ∧
      (∀ o, a.getterSem (.str o :: c) = .ok (.optStr o, c))) ∧
    (a.ty = .Object → a.nullable = false →
      a.ownedTy = "::yutani::Id" ∧
      (∀ n, a.getterSem (.obj (some n) :: c) = .ok (.obj n, c)) ∧
      a.getterSem (.obj none :: c) = .error .NON_NULLABLE) ∧
    (a.ty = .Object → a.nullable = true →
      a.ownedTy = "::core::option::Option<::yutani::Id>" ∧
      (∀ o, a.getterSem (.obj o :: c) = .ok (.optObj o, c))) := by
  refine ⟨fun ht hn => ?_, fun ht hn => ?_, fun ht hn => ?_, fun ht hn => ?_⟩ <;>
    simp [Arg.ownedTy, Arg.getterSem, readString, readObject, Except.map, ht, hn]

/-- Witness for C3: the non-nullable string arg of `greeter.hello` and a
nullable object arg, at concrete cursors. -/
theorem string_object_nullability_witness :
    (helloArg.ownedTy = "::std::string::String" ∧
      helloArg.getterSem [.str (some "alice")] = .ok (.str "alice", []) ∧
      helloArg.getterSem [.str none] = .error .NON_NULLABLE) ∧
    (parentArg.ownedTy = "::core::option::Option<::yutani::Id>" ∧
      parentArg.getterSem [.obj none] = .ok (.optObj none, [])) :=
  ⟨⟨((string_object_nullability helloArg []).1 rfl rfl).1,
    ((string_object_nullability helloArg []).1 rfl rfl).2.1 "alice",
    ((string_object_nullability helloArg []).1 rfl rfl).2.2⟩,
   ⟨((string_object_nullability parentArg []).2.2.2 rfl rfl).1,
    ((string_object_nullability parentArg []).2.2.2 rfl rfl).2 none⟩⟩

/-- Decoding a cons of args runs the head getter first and threads the
cursor into the remaining decodes. -/
theorem decodeArgs_cons_ok (a : Arg) (rest : List Arg) (c : Cursor) (v : Val)
    (c1 : Cursor) (h : a.getterSem c = .ok (v, c1)) :
    decodeArgs (a :: rest) c
      = (decodeArgs rest c1).map (fun p => (v :: p.1, p.2)) := by
  simp only [decodeArgs, h]
  cases decodeArgs rest c1 with
  | error e => rfl
  | ok p => rfl

/-- A getter failure after a successfully decoded prefix fails the whole
decode with that error, whatever args follow the failing one. -/
theorem decodeArgs_fail_after (pre : List Arg) :
    ∀ (c : Cursor) (vs : List Val) (c1 : Cursor),
      decodeArgs pre c = .ok (vs, c1) →
      ∀ (a : Arg) (e : WlError), a.getterSem c1 = .error e →
      ∀ tail, decodeArgs (pre ++ a :: tail) c = .error e := by
  induction pre with
  | nil =>
    intro c vs c1 h a e hf tail
    simp only [decodeArgs] at h
    obtain ⟨rfl, rfl⟩ : vs = [] ∧ c1 = c := by
      cases h; exact ⟨rfl, rfl⟩
    simp [decodeArgs, hf]
  | cons p rest ih =>
    intro c vs c1 h a e hf tail
    cases hg : p.getterSem c with
    | error e2 =>
      rw [show decodeArgs (p :: rest) c = .error e2 by simp only [decodeArgs, hg]] at h
      cases h
    | ok pr =>
      obtain ⟨v0, c0⟩ := pr
      rw [decodeArgs_cons_ok p rest c v0 c0 hg] at h
      cases hd : decodeArgs rest c0 with
      | error e2 => rw [hd] at h; cases h
      | ok pr2 =>
        obtain ⟨vs2, c2⟩ := pr2
        rw [hd] at h
        have h2 : (Except.ok (v0 :: vs2, c2) : Except WlError (List Val × Cursor))
            = .ok (vs, c1) := h
        have hc1 : c2 = c1 := by cases h2; rfl
        rw [List.cons_append, decodeArgs_cons_ok p (rest ++ a :: tail) c v0 c0 hg,
          ih c0 vs2 c1 (by rw [hd, hc1]) a e hf tail]
        rfl

/-- C4: the dispatch branch for opcode `i` decodes request `i`'s args in
declared order from the cursor (head getter first, cursor threaded into
the rest), propagates a decode failure immediately — the failing error is
the result whatever args follow, and the method is not invoked — and on
success invokes exactly request `i`'s method with the decoded values plus
the leased object, event loop and client context. -/
theorem dispatch_arm_decode_invoke {α β γ : Type} (requests : List Request)
    (i : Nat) (r : Request) (hi : requests.get? i = some r)
    (this : α) (eventLoop : β) (client : γ) :
    (∀ c vals c2, decodeArgs r.args c = .ok (vals, c2) →
      dispatch requests (some this) eventLoop client i c
        = .ok { this := this, eventLoop := eventLoop, client := client
                ident := toSnakeCase r.name, vals := vals }) ∧
    (∀ c e, decodeArgs r.args c = .error e →
      dispatch requests (some this) eventLoop client i c = .error e) ∧
    (∀ (a : Arg) rest c v c1, Arg.getterSem a c = .ok (v, c1) →
      decodeArgs (a :: rest) c
        = (decodeArgs rest c1).map (fun p => (v :: p.1, p.2))) ∧
    (∀ pre (a : Arg) tail c vs c1 e, decodeArgs pre c = .ok (vs, c1) →
      Arg.getterSem a c1 = .error e →
      decodeArgs (pre ++ a :: tail) c = .error e) := by
  refine ⟨fun c vals c2 h => ?_, fun c e h => ?_,
    fun a rest c v c1 h => decodeArgs_cons_ok a rest c v c1 h,
    fun pre a tail c vs c1 e h hf => decodeArgs_fail_after pre c vs c1 h a e hf tail⟩
  · simp only [dispatch, hi, h]
  · simp only [dispatch, hi, h]

/-- Witness for C4 on `greeter`: opcode 0 with a present string invokes
`hello` with the decoded value; an absent string fails the decode, the
error is the dispatch result, and it is unchanged by trailing args. -/
theorem dispatch_arm_decode_invoke_witness :
    dispatch [helloRequest] (some ()) () () 0 [.str (some "alice")]
      = .ok { this := (), eventLoop := (), client := ()
              ident := toSnakeCase helloRequest.name, vals := [.str "alice"] } ∧
    dispatch [helloRequest] (some ()) () () 0 [.str none] = .error .NON_NULLABLE ∧
    decodeArgs ([] ++ helloArg :: [parentArg]) [.str none] = .error .NON_NULLABLE :=
  ⟨(dispatch_arm_decode_invoke [helloRequest] 0 helloRequest rfl () () ()).1
      [.str (some "alice")] [.str "alice"] [] rfl,
   (dispatch_arm_decode_invoke [helloRequest] 0 helloRequest rfl () () ()).2.1
      [.str none] .NON_NULLABLE rfl,
   (dispatch_arm_decode_invoke [helloRequest] 0 helloRequest rfl () () ()).2.2.2
      [] helloArg [parentArg] [.str none] [] [.str none] .NON_NULLABLE rfl rfl⟩

/-- With no failure scripted, the senders emit exactly the wire values
`sentOf` computes, in declared order, with no error. -/
theorem runSenders_all_ok (args : List Arg) :
    ∀ (vals : List Val) (ws : List WireVal), sentOf args vals = some ws →
      runSenders args vals [] = (ws.map Op.send, none) := by
  induction args with
  | nil =>
    intro vals ws h
    cases vals with
    | nil => cases h; rfl
    | cons v vs => cases h
  | cons a rest ih =>
    intro vals ws h
    cases vals with
    | nil => cases h
    | cons v vs =>
      simp only [sentOf] at h
      cases hw : a.senderSem v with
      | none => rw [hw] at h; cases h
      | some w =>
        rw [hw] at h
        cases hs : sentOf rest vs with
        | none => rw [hs] at h; cases h
        | some ws2 =>
          rw [hs] at h
          have h2 : (some (w :: ws2) : Option (List WireVal)) = some ws := h
          cases h2
          simp [runSenders, hw, ih vs ws2 hs]

/-- The sender sequence never commits: `commit` is only issued after
every sender, by the body itself. -/
theorem runSenders_no_commit (args : List Arg) :
    ∀ (vals : List Val) (script : List Bool),
      Op.commit ∉ (runSenders args vals script).1 := by
  induction args with
  | nil => intro vals script; simp [runSenders]
  | cons a rest ih =>
    intro vals script
    cases vals with
    | nil => simp [runSenders]
    | cons v vs =>
      cases hsc : script.head?.getD true with
      | false => simp [runSenders, hsc]
      | true =>
        cases hw : a.senderSem v with
        | none => simp [runSenders, hsc, hw]
        | some w => simp [runSenders, hsc, hw, ih vs script.tail]

/-- C5: the default body generated for the `j`-th declared event starts a
message keyed by the object id and opcode `j`, encodes the arguments in
declared order via their encode templates, then commits; an encode
failure propagates as the result (and nothing after it reaches the
stream), a failed commit propagates as the result, and a commit is only
ever observable when the body returned no error. -/
theorem event_default_body (i : Interface) (j : Nat) (e : Event)
    (he : i.events[j]? = some e) :
    ((interface i).events[j]? = some (event e j)) ∧
    (∀ id vals ws, sentOf e.args vals = some ws →
      eventBody e j id vals [] true
        = (.start id j :: ws.map Op.send ++ [.commit], none)) ∧
    (∀ id vals ws, sentOf e.args vals = some ws →
      eventBody e j id vals [] false
        = (.start id j :: ws.map Op.send, some .COMMIT_FAILED)) ∧
    (∀ id vals script commitOk err,
      (runSenders e.args vals script).2 = some err →
      eventBody e j id vals script commitOk
        = (.start id j :: (runSenders e.args vals script).1, some err)) ∧
    (∀ id vals script commitOk,
      Op.commit ∈ (eventBody e j id vals script commitOk).1 →
      (eventBody e j id vals script commitOk).2 = none) := by
  refine ⟨?_, fun id vals ws h => ?_, fun id vals ws h => ?_,
    fun id vals script commitOk err h => ?_, fun id vals script commitOk hc => ?_⟩
  · show (i.events.enum.map (fun p => event p.2 p.1))[j]? = some (event e j)
    rw [List.getElem?_map, List.getElem?_enum, he]
    rfl
  · simp [eventBody, runSenders_all_ok e.args vals ws h]
  · simp [eventBody, runSenders_all_ok e.args vals ws h]
  · simp [eventBody, h]
  · cases h2 : (runSenders e.args vals script).2 with
    | none =>
      cases commitOk with
      | true => simp [eventBody, h2]
      | false =>
        exfalso
        simp [eventBody, h2] at hc
        exact runSenders_no_commit e.args vals script hc
    | some err =>
      exfalso
      simp [eventBody, h2] at hc
      exact runSenders_no_commit e.args vals script hc

/-- Witness for C5 on `greeter.greeting` (opcode 0): successful emission
at object id 5, and a scripted send failure. -/
theorem event_default_body_witness :
    (interface greeter).events[0]? = some (event greetingEvent 0) ∧
    eventBody greetingEvent 0 5 [.str "hi"] [] true
      = (.start 5 0 :: [WireVal.str (some "hi")].map Op.send ++ [.commit], none) ∧
    eventBody greetingEvent 0 5 [.str "hi"] [false] true
      = (.start 5 0 :: (runSenders greetingEvent.args [.str "hi"] [false]).1,
         some .SEND_FAILED) :=
  ⟨(event_default_body greeter 0 greetingEvent rfl).1,
   (event_default_body greeter 0 greetingEvent rfl).2.1 5 [.str "hi"]
     [.str (some "hi")] rfl,
   (event_default_body greeter 0 greetingEvent rfl).2.2.2.1 5 [.str "hi"]
     [false] true .SEND_FAILED rfl⟩

/-- C6: a NewId arg with a pinned interface name produces the same owned
type, decode template and encode template as a non-nullable Object arg
of the same name (and the same runtime decode meaning); a NewId arg
without a pinned interface uses the dedicated new-id descriptor
read/write forms instead. -/
theorem newid_pinned_matches_object (a b : Arg) (ha : a.ty = .NewId)
    (hai : a.interface.isSome) (hb : b.ty = .Object) (hbn : b.nullable = false)
    (hname : a.name = b.name) :
    a.ownedTy = b.ownedTy ∧
    (∀ st, a.getter st = b.getter st) ∧
    (∀ st, a.sender st = b.sender st) ∧
    (∀ c, a.getterSem c = b.getterSem c) ∧
    (∀ u : Arg, u.ty = .NewId → u.interface = none →
      u.ownedTy = "::yutani::NewId" ∧
      (∀ st, u.getter st = st ++ ".new_id()?") ∧
      (∀ st, u.sender st = st ++ ".send_new_id(" ++ toSnakeCase u.name ++ ")?")) := by
  obtain ⟨s, hs⟩ := Option.isSome_iff_exists.mp hai
  refine ⟨?_, ?_, ?_, ?_, fun u hu hui => ⟨?_, ?_, ?_⟩⟩ <;>
    simp [Arg.ownedTy, Arg.getter, Arg.sender, Arg.getterSem,
      ha, hs, hb, hbn, hname, *]

/-- A pinned-interface NewId arg used as a witness input. -/
def pinnedNewIdArg : Arg :=
  { name := "output", nullable := false, ty := .NewId
    interface := some "wl_output", enumeration := none, summary := none }

/-- A non-nullable Object arg of the same name as `pinnedNewIdArg`. -/
def outputObjectArg : Arg :=
  { name := "output", nullable := false, ty := .Object
    interface := none, enumeration := none, summary := none }

/-- An unpinned NewId arg used as a witness input. -/
def unpinnedNewIdArg : Arg :=
  { name := "id", nullable := false, ty := .NewId
    interface := none, enumeration := none, summary := none }

/-- Witness for C6: a pinned NewId arg named `output` against the
equally named non-nullable Object arg, and the unpinned descriptor
forms. -/
theorem newid_pinned_matches_object_witness :
    pinnedNewIdArg.ownedTy = outputObjectArg.ownedTy ∧
    pinnedNewIdArg.getter "_stream" = outputObjectArg.getter "_stream" ∧
    pinnedNewIdArg.sender "_stream" = outputObjectArg.sender "_stream" ∧
    unpinnedNewIdArg.getter "_stream" = "_stream" ++ ".new_id()?" :=
  ⟨(newid_pinned_matches_object pinnedNewIdArg outputObjectArg rfl rfl rfl rfl rfl).1,
   (newid_pinned_matches_object pinnedNewIdArg outputObjectArg rfl rfl rfl rfl rfl).2.1
     "_stream",
   (newid_pinned_matches_object pinnedNewIdArg outputObjectArg rfl rfl rfl rfl rfl).2.2.1
     "_stream",
   ((newid_pinned_matches_object pinnedNewIdArg outputObjectArg rfl rfl rfl rfl rfl).2.2.2.2
     unpinnedNewIdArg rfl rfl).2.1 "_stream"⟩

/-- C9: for args of wire type Int, Uint, Fixed, Array, Fd or NewId the
nullable flag has no effect: flipping it leaves the owned type, the
transient type, the decode template and the encode template unchanged
(nullability only influences String and Object args). -/
theorem nullable_flag_irrelevant (a : Arg) (b1 b2 : Bool)
    (h : a.ty = .Int ∨ a.ty = .Uint ∨ a.ty = .Fixed ∨ a.ty = .Array ∨
         a.ty = .Fd ∨ a.ty = .NewId) :
    ({ a with nullable := b1 } : Arg).ownedTy
        = ({ a with nullable := b2 } : Arg).ownedTy ∧
    ({ a with nullable := b1 } : Arg).send_ty
        = ({ a with nullable := b2 } : Arg).send_ty ∧
    (∀ st, ({ a with nullable := b1 } : Arg).getter st
        = ({ a with nullable := b2 } : Arg).getter st) ∧
    (∀ st, ({ a with nullable := b1 } : Arg).sender st
        = ({ a with nullable := b2 } : Arg).sender st) := by
  rcases h with h | h | h | h | h | h <;>
    cases hi : a.interface <;>
    simp [Arg.ownedTy, Arg.send_ty, Arg.getter, Arg.sender, h, hi]

/-- Witness for C9: flipping the nullable flag on the unpinned NewId arg
changes none of the four artifacts. -/
theorem nullable_flag_irrelevant_witness :
    ({ unpinnedNewIdArg with nullable := true } : Arg).ownedTy
        = ({ unpinnedNewIdArg with nullable := false } : Arg).ownedTy ∧
    ({ unpinnedNewIdArg with nullable := true } : Arg).send_ty
        = ({ unpinnedNewIdArg with nullable := false } : Arg).send_ty ∧
    ({ unpinnedNewIdArg with nullable := true } : Arg).getter "_stream"
        = ({ unpinnedNewIdArg with nullable := false } : Arg).getter "_stream" ∧
    ({ unpinnedNewIdArg with nullable := true } : Arg).sender "_stream"
        = ({ unpinnedNewIdArg with nullable := false } : Arg).sender "_stream" :=
  ⟨(nullable_flag_irrelevant unpinnedNewIdArg true false (by simp [unpinnedNewIdArg])).1,
   (nullable_flag_irrelevant unpinnedNewIdArg true false (by simp [unpinnedNewIdArg])).2.1,
   (nullable_flag_irrelevant unpinnedNewIdArg true false (by simp [unpinnedNewIdArg])).2.2.1
     "_stream",
   (nullable_flag_irrelevant unpinnedNewIdArg true false (by simp [unpinnedNewIdArg])).2.2.2
     "_stream"⟩

/-- Erase the one Arg field the emitter never reads: the enum-name
association. -/
def Arg.scrub (a : Arg) : Arg :=
  { a with enumeration := none }

/-- Erase the Request fields the emitter never reads: the destructor
flag, and the enum associations of its args. -/
def Request.scrub (r : Request) : Request :=
  { r with destructor := false, args := r.args.map Arg.scrub }

/-- Erase the enum associations of an Event's args. -/
def Event.scrub (e : Event) : Event :=
  { e with args := e.args.map Arg.scrub }

/-- Erase destructor flags and enum associations across an Interface. -/
def Interface.scrub (i : Interface) : Interface :=
  { i with requests := i.requests.map Request.scrub
           events := i.events.map Event.scrub }

/-- Erase destructor flags and enum associations across a Protocol. -/
def Protocol.scrub (p : Protocol) : Protocol :=
  { p with interfaces := p.interfaces.map Interface.scrub }

/-- The request declaration ignores the destructor flag and the args'
enum associations. -/
theorem request_scrub (r : Request) : request (Request.scrub r) = request r := by
  unfold request Request.scrub
  simp only [List.map_map, List.filterMap_map]
  rfl

/-- The event declaration ignores the args' enum associations. -/
theorem event_scrub (e : Event) (k : Nat) : event (Event.scrub e) k = event e k := by
  unfold event Event.scrub
  simp only [List.map_map, List.filterMap_map]
  rfl

/-- The dispatch arm ignores the destructor flag and the args' enum
associations. -/
theorem dispatchArm_scrub (k : Nat) (r : Request) :
    dispatchArm k (Request.scrub r) = dispatchArm k r := by
  unfold dispatchArm Request.scrub
  simp only [List.map_map]
  rfl

/-- The interface emission ignores destructor flags and enum
associations. -/
theorem interface_scrub (i : Interface) :
    interface (Interface.scrub i) = interface i := by
  unfold interface Interface.scrub
  simp only [List.enum_map, List.map_map]
  congr 1
  · exact List.map_congr_left (fun r _ => request_scrub r)
  · exact List.map_congr_left (fun p _ => event_scrub p.2 p.1)
  · exact List.map_congr_left (fun p _ => dispatchArm_scrub p.1 p.2)

/-- The whole generated source unit ignores destructor flags and enum
associations. -/
theorem protocol_scrub (p : Protocol) :
    protocol (Protocol.scrub p) = protocol p := by
  unfold protocol Protocol.scrub
  simp only [List.map_map]
  congr 1
  exact List.map_congr_left (fun i _ => interface_scrub i)

/-- C10: the generated output is independent of Request destructor flags
and Arg enum-name associations — any two protocol models agreeing after
erasing those two fields (`Protocol.scrub`) emit identical generated
source — and an enum-associated Uint arg is still typed as the plain
`u32`, not as the generated enum wrapper. -/
theorem output_ignores_destructor_and_enum (p1 p2 : Protocol)
    (h : Protocol.scrub p1 = Protocol.scrub p2) :
    protocol p1 = protocol p2 ∧
    (∀ a : Arg, a.ty = .Uint → a.ownedTy = "::core::primitive::u32" ∧
      a.send_ty = "::core::primitive::u32") := by
  refine ⟨?_, fun a ha => by simp [Arg.ownedTy, Arg.send_ty, ha]⟩
  calc protocol p1 = protocol (Protocol.scrub p1) := (protocol_scrub p1).symm
    _ = protocol (Protocol.scrub p2) := by rw [h]
    _ = protocol p2 := protocol_scrub p2

/-- A `set_mode(mode: uint)` request with configurable destructor flag
and enum association, for the C10 witness. -/
def modeRequest (d : Bool) (en : Option String) : Request :=
  { name := "set_mode", since := none, destructor := d
    summary := none, description := none
    args := [{ name := "mode", nullable := false, ty := .Uint
               interface := none, enumeration := en, summary := none }] }

/-- A one-interface protocol around `modeRequest d en`. -/
def modeProtocol (d : Bool) (en : Option String) : Protocol :=
  { name := "demo", summary := none, description := none, copyright := none
    interfaces := [{ name := "mode_setter", summary := none, description := none
                     version := 1, enums := [], requests := [modeRequest d en]
                     events := [] }] }

/-- Witness for C10: the model with `destructor = false` and no enum
association emits the same source as the one with `destructor = true`
and `enum = "transform"`, whose Uint arg is typed `u32`. -/
theorem output_ignores_destructor_and_enum_witness :
    protocol (modeProtocol false none) = protocol (modeProtocol true (some "transform")) ∧
    ({ name := "mode", nullable := false, ty := .Uint, interface := none
       enumeration := some "transform", summary := none } : Arg).ownedTy
      = "::core::primitive::u32" :=
  ⟨(output_ignores_destructor_and_enum (modeProtocol false none)
      (modeProtocol true (some "transform")) rfl).1,
   ((output_ignores_destructor_and_enum (modeProtocol false none)
      (modeProtocol true (some "transform")) rfl).2
      { name := "mode", nullable := false, ty := .Uint, interface := none
        enumeration := some "transform", summary := none } rfl).1⟩
